import Mathlib

/-!
Shallow embedding of the geometric matching engine of the
traffic-route-update ETL repository (`route_check.py`), together with
theorems settling the specification claims about it.

Python strings are modelled as `List Char`, Python floats as `ℝ`, and a
coordinate entry of an event row as `Option (ℝ × ℝ)` (`some (lng, lat)`
for an entry whose two components parse to floats, `none` for an entry
whose parsing raises and is skipped).  A raised exception that escapes a
function is modelled with `Except`.
-/

namespace RouteCheck

/-- Python strings (`List Char` keeps the reasoning elementary). -/
abbrev Str := List Char

/-- The `Location` dataclass: a geographic point (`route_check.py`). -/
structure Location where
  lat : ℝ
  lng : ℝ

/-- The `RouteDirection` dataclass: one direction of one bus route. -/
structure RouteDir where
  route_id : Str
  direction : Str
  coordinates : List Location

/-- The local equirectangular projection used by every geometric
primitive of `BusRouteTrafficMatcher`:
`x = lng * 111320 * cos(radians(lat))`, `y = lat * 111320`. -/
noncomputable def toCartesian (loc : Location) : ℝ × ℝ :=
  (loc.lng * 111320 * Real.cos (loc.lat * Real.pi / 180), loc.lat * 111320)

/-- The containment test `point_on_line_segment`: cross product for perpendicular distance,
dot product for the unclamped in-bounds check, degenerate segment as a
single point. -/
noncomputable def point_on_line_segment (point line_start line_end : Location)
    (tolerance_meters : ℝ) : Bool :=
  let p := toCartesian point
  let a := toCartesian line_start
  let b := toCartesian line_end
  let ab_x := b.1 - a.1
  let ab_y := b.2 - a.2
  let ap_x := p.1 - a.1
  let ap_y := p.2 - a.2
  let cross_product := |ap_x * ab_y - ap_y * ab_x|
  let line_length := Real.sqrt (ab_x * ab_x + ab_y * ab_y)
  if line_length = 0 then
    decide (Real.sqrt (ap_x * ap_x + ap_y * ap_y) ≤ tolerance_meters)
  else
    let distance_to_line := cross_product / line_length
    if tolerance_meters < distance_to_line then false
    else
      let dot_product := ap_x * ab_x + ap_y * ab_y
      if dot_product < 0 ∨ ab_x * ab_x + ab_y * ab_y < dot_product then false
      else true

/-- The `orientation` helper of `line_segments_intersect`: 0 when the cross
product is below the `1e-10` collinearity epsilon, 1 clockwise,
2 counterclockwise. -/
noncomputable def orientation (px py qx qy rx ry : ℝ) : ℕ :=
  let val := (qy - py) * (rx - qx) - (qx - px) * (ry - qy)
  if |val| < 1e-10 then 0
  else if 0 < val then 1 else 2

/-- The `on_segment` helper of `line_segments_intersect`: axis-aligned
bounding-box containment of `q` in the box spanned by `p` and `r`. -/
noncomputable def on_segment (px py qx qy rx ry : ℝ) : Bool :=
  decide (qx ≤ max px rx ∧ min px rx ≤ qx ∧ qy ≤ max py ry ∧ min py ry ≤ qy)

/-- The test `line_segments_intersect`: classic orientation test with collinear
special cases. -/
noncomputable def line_segments_intersect
    (line1_start line1_end line2_start line2_end : Location) : Bool :=
  let p1 := toCartesian line1_start
  let p2 := toCartesian line1_end
  let p3 := toCartesian line2_start
  let p4 := toCartesian line2_end
  let o1 := orientation p1.1 p1.2 p2.1 p2.2 p3.1 p3.2
  let o2 := orientation p1.1 p1.2 p2.1 p2.2 p4.1 p4.2
  let o3 := orientation p3.1 p3.2 p4.1 p4.2 p1.1 p1.2
  let o4 := orientation p3.1 p3.2 p4.1 p4.2 p2.1 p2.2
  if o1 ≠ o2 ∧ o3 ≠ o4 then true
  else if (o1 = 0 ∧ on_segment p1.1 p1.2 p3.1 p3.2 p2.1 p2.2)
       ∨ (o2 = 0 ∧ on_segment p1.1 p1.2 p4.1 p4.2 p2.1 p2.2)
       ∨ (o3 = 0 ∧ on_segment p3.1 p3.2 p1.1 p1.2 p4.1 p4.2)
       ∨ (o4 = 0 ∧ on_segment p3.1 p3.2 p2.1 p2.2 p4.1 p4.2) then true
  else false

/-- Default location used only to express Python's in-bounds list
indexing `polyline[i]` through `List.getD`. -/
noncomputable def dummyLoc : Location := ⟨0, 0⟩

/-- The scan `polylines_intersect`: every event segment `i` against every route
segment `j`; `i` is appended the first time it intersects anything. -/
noncomputable def polylines_intersect (polyline1 polyline2 : List Location) :
    Bool × List ℕ :=
  if polyline1.length < 2 ∨ polyline2.length < 2 then (false, [])
  else
    let intersecting_segments :=
      (List.range (polyline1.length - 1)).foldl (fun acc i =>
        (List.range (polyline2.length - 1)).foldl (fun acc2 j =>
          if line_segments_intersect
              (polyline1.getD i dummyLoc) (polyline1.getD (i + 1) dummyLoc)
              (polyline2.getD j dummyLoc) (polyline2.getD (j + 1) dummyLoc) then
            if i ∈ acc2 then acc2 else acc2 ++ [i]
          else acc2) acc) []
    (decide (0 < intersecting_segments.length), intersecting_segments)

/-- The scan `point_on_polyline`: walk the segments in order, return on the first
segment containing the point. -/
noncomputable def point_on_polyline (point : Location) (polyline : List Location)
    (tolerance_meters : ℝ) : Bool × Option ℕ :=
  if polyline.length < 2 then (false, none)
  else
    match (List.range (polyline.length - 1)).find? (fun i =>
        point_on_line_segment point (polyline.getD i dummyLoc)
          (polyline.getD (i + 1) dummyLoc) tolerance_meters) with
    | some i => (true, some i)
    | none => (false, none)

/-- Untangling of the early-return structure of
`line_segments_intersect` into the disjunction it computes. -/
theorem line_segments_intersect_eq_true_iff
    (line1_start line1_end line2_start line2_end : Location) :
    line_segments_intersect line1_start line1_end line2_start line2_end = true ↔
      (let p1 := toCartesian line1_start
       let p2 := toCartesian line1_end
       let p3 := toCartesian line2_start
       let p4 := toCartesian line2_end
       let o1 := orientation p1.1 p1.2 p2.1 p2.2 p3.1 p3.2
       let o2 := orientation p1.1 p1.2 p2.1 p2.2 p4.1 p4.2
       let o3 := orientation p3.1 p3.2 p4.1 p4.2 p1.1 p1.2
       let o4 := orientation p3.1 p3.2 p4.1 p4.2 p2.1 p2.2
       (o1 ≠ o2 ∧ o3 ≠ o4)
       ∨ (o1 = 0 ∧ on_segment p1.1 p1.2 p3.1 p3.2 p2.1 p2.2 = true)
       ∨ (o2 = 0 ∧ on_segment p1.1 p1.2 p4.1 p4.2 p2.1 p2.2 = true)
       ∨ (o3 = 0 ∧ on_segment p3.1 p3.2 p1.1 p1.2 p4.1 p4.2 = true)
       ∨ (o4 = 0 ∧ on_segment p3.1 p3.2 p2.1 p2.2 p4.1 p4.2 = true)) := by
  simp only [line_segments_intersect]
  split_ifs with h1 h2
  · simp only [true_iff]
    exact Or.inl h1
  · simp only [true_iff]
    rcases h2 with h | h | h | h
    · exact Or.inr (Or.inl ⟨h.1, by simp [h.2]⟩)
    · exact Or.inr (Or.inr (Or.inl ⟨h.1, by simp [h.2]⟩))
    · exact Or.inr (Or.inr (Or.inr (Or.inl ⟨h.1, by simp [h.2]⟩)))
    · exact Or.inr (Or.inr (Or.inr (Or.inr ⟨h.1, by simp [h.2]⟩)))
  · simp only [Bool.false_eq_true, false_iff]
    rintro (h | h | h | h | h)
    · exact h1 h
    · exact h2 (Or.inl ⟨h.1, by simpa using h.2⟩)
    · exact h2 (Or.inr (Or.inl ⟨h.1, by simpa using h.2⟩))
    · exact h2 (Or.inr (Or.inr (Or.inl ⟨h.1, by simpa using h.2⟩)))
    · exact h2 (Or.inr (Or.inr (Or.inr ⟨h.1, by simpa using h.2⟩)))

/-- Working form of the containment test (the claim-C2 theorem below
instantiates it). -/
theorem point_on_line_segment_true_iff (point line_start line_end : Location)
    (tolerance_meters : ℝ) :
    point_on_line_segment point line_start line_end tolerance_meters = true ↔
      (let p := toCartesian point
       let a := toCartesian line_start
       let b := toCartesian line_end
       let ab_x := b.1 - a.1
       let ab_y := b.2 - a.2
       let ap_x := p.1 - a.1
       let ap_y := p.2 - a.2
       let seg_len := Real.sqrt (ab_x * ab_x + ab_y * ab_y)
       (0 < seg_len ∧
         |ap_x * ab_y - ap_y * ab_x| / seg_len ≤ tolerance_meters ∧
         0 ≤ ap_x * ab_x + ap_y * ab_y ∧
         ap_x * ab_x + ap_y * ab_y ≤ ab_x * ab_x + ab_y * ab_y) ∨
       (seg_len = 0 ∧
         Real.sqrt (ap_x * ap_x + ap_y * ap_y) ≤ tolerance_meters)) := by
  simp only [point_on_line_segment]
  split_ifs with h0 h1 h2
  · simp only [h0, lt_irrefl, false_and, false_or, true_and, decide_eq_true_eq]
  · simp only [Bool.false_eq_true, false_iff]
    rintro (⟨-, hle, -, -⟩ | ⟨hz, -⟩)
    · exact absurd hle (not_le.mpr h1)
    · exact h0 hz
  · simp only [Bool.false_eq_true, false_iff]
    rintro (⟨-, -, hd0, hd2⟩ | ⟨hz, -⟩)
    · rcases h2 with h | h
      · exact absurd hd0 (not_le.mpr h)
      · exact absurd hd2 (not_le.mpr h)
    · exact h0 hz
  · simp only [true_iff]
    push_neg at h2
    exact Or.inl ⟨lt_of_le_of_ne (Real.sqrt_nonneg _) (Ne.symm h0),
      not_lt.mp h1, h2.1, h2.2⟩

/-- C2: `point_on_line_segment(p, a, b, tolerance_meters)` returns true
iff: when `|ab| > 0`, the perpendicular distance `|cross(ap, ab)| / |ab|`
in the local Cartesian projection is at most `tolerance_meters` and the
unclamped dot product of `ap` with `ab` lies within `[0, |ab|^2]`; and
when `|ab| = 0`, the Cartesian distance from `p` to that single point is
within `tolerance_meters`.  In particular a point at perpendicular
distance exactly `tolerance_meters` projecting within bounds is
accepted, one strictly beyond `tolerance_meters` is rejected, and a
point collinear with the segment's extension but whose dot product falls
outside `[0, |ab|^2]` is rejected even at zero perpendicular
distance. -/
theorem point_on_line_segment_iff (point line_start line_end : Location)
    (tolerance_meters : ℝ) :
    point_on_line_segment point line_start line_end tolerance_meters = true ↔
      (let p := toCartesian point
       let a := toCartesian line_start
       let b := toCartesian line_end
       let ab_x := b.1 - a.1
       let ab_y := b.2 - a.2
       let ap_x := p.1 - a.1
       let ap_y := p.2 - a.2
       let seg_len := Real.sqrt (ab_x * ab_x + ab_y * ab_y)
       (0 < seg_len ∧
         |ap_x * ab_y - ap_y * ab_x| / seg_len ≤ tolerance_meters ∧
         0 ≤ ap_x * ab_x + ap_y * ab_y ∧
         ap_x * ab_x + ap_y * ab_y ≤ ab_x * ab_x + ab_y * ab_y) ∨
       (seg_len = 0 ∧
         Real.sqrt (ap_x * ap_x + ap_y * ap_y) ≤ tolerance_meters)) :=
  point_on_line_segment_true_iff point line_start line_end tolerance_meters

/-- C4: the segment-intersection test is symmetric under swapping the
two segments. -/
theorem line_segments_intersect_symm (A B C D : Location) :
    line_segments_intersect A B C D = line_segments_intersect C D A B := by
  rw [Bool.eq_iff_iff, line_segments_intersect_eq_true_iff,
    line_segments_intersect_eq_true_iff]
  tauto

/-- The pairwise segment test performed inside `polylines_intersect`:
event segment `i` of `polyline1` against segment `j` of `polyline2`. -/
noncomputable def segTest (polyline1 polyline2 : List Location) (i j : ℕ) : Bool :=
  line_segments_intersect
    (polyline1.getD i dummyLoc) (polyline1.getD (i + 1) dummyLoc)
    (polyline2.getD j dummyLoc) (polyline2.getD (j + 1) dummyLoc)

/-- The inner `for j` loop of `polylines_intersect` appends `i` exactly
once, the first time any `j` intersects, and otherwise leaves the
accumulator unchanged. -/
theorem inner_loop_eq (f : ℕ → ℕ → Bool) (i : ℕ) (js : List ℕ) (acc : List ℕ) :
    js.foldl (fun acc2 j =>
        if f i j then (if i ∈ acc2 then acc2 else acc2 ++ [i]) else acc2) acc =
      if js.any (fun j => f i j) = true ∧ i ∉ acc then acc ++ [i] else acc := by
  induction js generalizing acc with
  | nil => simp
  | cons j js ih =>
    simp only [List.foldl_cons]
    by_cases hj : f i j = true
    · rw [if_pos hj]
      by_cases hacc : i ∈ acc
      · rw [if_pos hacc, ih]
        simp [hacc]
      · rw [if_neg hacc, ih]
        rw [if_neg (fun hc => hc.2 (by simp)),
          if_pos ⟨by simp [List.any_cons, hj], hacc⟩]
    · rw [if_neg hj, ih]
      simp [List.any_cons, hj]

/-- The outer `for i` loop of `polylines_intersect` computes the filter
of the candidate indices by "some `j` intersects". -/
theorem outer_loop_eq (f : ℕ → ℕ → Bool) (js : List ℕ) :
    ∀ (is : List ℕ) (acc : List ℕ), is.Nodup → (∀ i ∈ is, i ∉ acc) →
    is.foldl (fun acc i => js.foldl (fun acc2 j =>
        if f i j then (if i ∈ acc2 then acc2 else acc2 ++ [i]) else acc2) acc) acc =
      acc ++ is.filter (fun i => js.any (fun j => f i j)) := by
  intro is
  induction is with
  | nil => intro acc _ _; simp
  | cons i is ih =>
    intro acc hnd hdisj
    rw [List.foldl_cons, inner_loop_eq]
    have hia : i ∉ acc := hdisj i (by simp)
    rw [List.filter_cons]
    by_cases hany : List.any js (fun j => f i j) = true
    · rw [if_pos ⟨hany, hia⟩, ih (acc ++ [i]) hnd.of_cons
        (fun i' hi' => by
          simp only [List.mem_append, List.mem_singleton, not_or]
          exact ⟨hdisj i' (List.mem_cons_of_mem _ hi'),
            fun h => (List.nodup_cons.mp hnd).1 (h ▸ hi')⟩)]
      simp [hany, List.append_assoc]
    · rw [if_neg (fun h => hany h.1), ih acc hnd.of_cons
        (fun i' hi' => hdisj i' (List.mem_cons_of_mem _ hi'))]
      simp [hany]

/-- Closed form of `polylines_intersect` on polylines with at least two
points each: the returned indices are the in-order filter of the event
segment indices that intersect some route segment. -/
theorem polylines_intersect_eq (polyline1 polyline2 : List Location)
    (h1 : 2 ≤ polyline1.length) (h2 : 2 ≤ polyline2.length) :
    polylines_intersect polyline1 polyline2 =
      (decide (0 < ((List.range (polyline1.length - 1)).filter (fun i =>
          (List.range (polyline2.length - 1)).any (fun j =>
            segTest polyline1 polyline2 i j))).length),
       (List.range (polyline1.length - 1)).filter (fun i =>
          (List.range (polyline2.length - 1)).any (fun j =>
            segTest polyline1 polyline2 i j))) := by
  have hout := outer_loop_eq (segTest polyline1 polyline2)
    (List.range (polyline2.length - 1)) (List.range (polyline1.length - 1)) []
    (List.nodup_range _) (by simp)
  simp only [segTest] at hout
  unfold polylines_intersect
  rw [if_neg (by omega)]
  simp only [hout, List.nil_append, segTest]

/-- C5: on polylines with at least 2 points each, `polylines_intersect`
returns a list of first-polyline segment indices in strictly increasing
order (hence duplicate-free and in first-discovery order, the outer scan
visiting event segments in order), an index is present iff that event
segment intersects some second-polyline segment, and the boolean result
is true exactly when the list is non-empty. -/
theorem polylines_intersect_spec (polyline1 polyline2 : List Location)
    (h1 : 2 ≤ polyline1.length) (h2 : 2 ≤ polyline2.length) :
    List.Pairwise (· < ·) (polylines_intersect polyline1 polyline2).2 ∧
    (∀ i, i ∈ (polylines_intersect polyline1 polyline2).2 ↔
      (i < polyline1.length - 1 ∧ ∃ j < polyline2.length - 1,
        line_segments_intersect
          (polyline1.getD i dummyLoc) (polyline1.getD (i + 1) dummyLoc)
          (polyline2.getD j dummyLoc) (polyline2.getD (j + 1) dummyLoc) = true)) ∧
    ((polylines_intersect polyline1 polyline2).1 = true ↔
      (polylines_intersect polyline1 polyline2).2 ≠ []) := by
  rw [polylines_intersect_eq polyline1 polyline2 h1 h2]
  refine ⟨(List.pairwise_lt_range _).filter _, fun i => ?_, ?_⟩
  · simp only [List.mem_filter, List.mem_range, List.any_eq_true, segTest]
  · simp [List.length_pos]

/-- First-hit characterisation of `find?` over `range' s n` for the
short-circuiting scans of the matcher. -/
theorem find?_range'_eq_some (f : ℕ → Bool) (s n i : ℕ) :
    (List.range' s n).find? f = some i ↔
      (s ≤ i ∧ i < s + n ∧ f i = true ∧ ∀ j, s ≤ j → j < i → f j = false) := by
  induction n generalizing s with
  | zero =>
    simp only [List.range'_zero, List.find?_nil]
    constructor
    · intro h
      exact absurd h (by simp)
    · rintro ⟨h1, h2, -, -⟩
      omega
  | succ n ih =>
    rw [List.range'_succ]
    by_cases hs : f s = true
    · rw [List.find?_cons_of_pos _ hs]
      constructor
      · rintro h
        have hsi : s = i := by simpa using h
        subst hsi
        exact ⟨le_refl _, by omega, hs, fun j h1 h2 => absurd h2 (by omega)⟩
      · rintro ⟨h1, h2, h3, h4⟩
        by_cases hi : i = s
        · subst hi; rfl
        · have hfs : f s = false := h4 s (le_refl _) (by omega)
          rw [hfs] at hs
          exact absurd hs (by simp)
    · rw [List.find?_cons_of_neg _ (by simp [hs]), ih]
      constructor
      · rintro ⟨h1, h2, h3, h4⟩
        refine ⟨by omega, by omega, h3, fun j hj1 hj2 => ?_⟩
        by_cases hjs : j = s
        · subst hjs
          exact Bool.not_eq_true _ |>.mp hs
        · exact h4 j (by omega) hj2
      · rintro ⟨h1, h2, h3, h4⟩
        have his : i ≠ s := fun h => hs (h ▸ h3)
        exact ⟨by omega, by omega, h3, fun j hj1 hj2 => h4 j (by omega) hj2⟩

/-- First-hit characterisation of `find?` over `range n`. -/
theorem find?_range_eq_some (f : ℕ → Bool) (n i : ℕ) :
    (List.range n).find? f = some i ↔
      (i < n ∧ f i = true ∧ ∀ j < i, f j = false) := by
  rw [List.range_eq_range', find?_range'_eq_some]
  constructor
  · rintro ⟨-, h2, h3, h4⟩
    exact ⟨by omega, h3, fun j hj => h4 j (by omega) hj⟩
  · rintro ⟨h1, h2, h3⟩
    exact ⟨by omega, by omega, h2, fun j _ hj => h3 j hj⟩

/-- C6: on a polyline with at least 2 points, `point_on_polyline` scans
the segments in order and returns `(true, some i)` exactly when `i` is
the first segment index satisfying `point_on_line_segment` (so only the
first qualifying index is ever reported, short-circuiting), and
`(false, none)` exactly when no segment qualifies. -/
theorem point_on_polyline_spec (point : Location) (polyline : List Location)
    (tolerance_meters : ℝ) (h : 2 ≤ polyline.length) :
    (∀ i, point_on_polyline point polyline tolerance_meters = (true, some i) ↔
      (i < polyline.length - 1 ∧
       point_on_line_segment point (polyline.getD i dummyLoc)
         (polyline.getD (i + 1) dummyLoc) tolerance_meters = true ∧
       ∀ j < i, point_on_line_segment point (polyline.getD j dummyLoc)
         (polyline.getD (j + 1) dummyLoc) tolerance_meters = false)) ∧
    (point_on_polyline point polyline tolerance_meters = (false, none) ↔
      (∀ i < polyline.length - 1,
        point_on_line_segment point (polyline.getD i dummyLoc)
          (polyline.getD (i + 1) dummyLoc) tolerance_meters = false)) := by
  unfold point_on_polyline
  rw [if_neg (by omega)]
  constructor
  · intro i
    rcases hf : (List.range (polyline.length - 1)).find? (fun k =>
        point_on_line_segment point (polyline.getD k dummyLoc)
          (polyline.getD (k + 1) dummyLoc) tolerance_meters) with _ | k
    · simp only [Prod.mk.injEq, Bool.false_eq_true, false_and, false_iff]
      rw [List.find?_eq_none] at hf
      rintro ⟨hi, hseg, -⟩
      exact absurd hseg (by simpa using hf i (List.mem_range.mpr hi))
    · rw [find?_range_eq_some] at hf
      simp only [Prod.mk.injEq, true_and, Option.some.injEq]
      constructor
      · rintro rfl
        exact hf
      · rintro ⟨hi, hseg, hfirst⟩
        rcases Nat.lt_trichotomy k i with hlt | heq | hgt
        · exact absurd hf.2.1 (by rw [hfirst k hlt]; exact Bool.false_ne_true)
        · exact heq
        · exact absurd hseg (by rw [hf.2.2 i hgt]; exact Bool.false_ne_true)
  · rcases hf : (List.range (polyline.length - 1)).find? (fun k =>
        point_on_line_segment point (polyline.getD k dummyLoc)
          (polyline.getD (k + 1) dummyLoc) tolerance_meters) with _ | k
    · simp only [Prod.mk.injEq, true_and]
      rw [List.find?_eq_none] at hf
      constructor
      · intro _ i hi
        exact Bool.not_eq_true _ |>.mp (hf i (List.mem_range.mpr hi))
      · intro _
        trivial
    · simp only [Prod.mk.injEq, Bool.true_eq_false, false_and, false_iff]
      rw [find?_range_eq_some] at hf
      intro hall
      exact absurd hf.2.1 (by rw [hall k hf.1]; exact Bool.false_ne_true)

/-- Witness for C5 at a concrete pair of two-point polylines. -/
theorem polylines_intersect_spec_witness :
    2 ≤ ([⟨0, 0⟩, ⟨0, 1⟩] : List Location).length ∧
    2 ≤ ([⟨0, 2⟩, ⟨0, 3⟩] : List Location).length ∧
    (List.Pairwise (· < ·)
        (polylines_intersect [⟨0, 0⟩, ⟨0, 1⟩] [⟨0, 2⟩, ⟨0, 3⟩]).2 ∧
      (∀ i, i ∈ (polylines_intersect [⟨0, 0⟩, ⟨0, 1⟩] [⟨0, 2⟩, ⟨0, 3⟩]).2 ↔
        (i < ([⟨0, 0⟩, ⟨0, 1⟩] : List Location).length - 1 ∧
          ∃ j < ([⟨0, 2⟩, ⟨0, 3⟩] : List Location).length - 1,
          line_segments_intersect
            (([⟨0, 0⟩, ⟨0, 1⟩] : List Location).getD i dummyLoc)
            (([⟨0, 0⟩, ⟨0, 1⟩] : List Location).getD (i + 1) dummyLoc)
            (([⟨0, 2⟩, ⟨0, 3⟩] : List Location).getD j dummyLoc)
            (([⟨0, 2⟩, ⟨0, 3⟩] : List Location).getD (j + 1) dummyLoc) = true)) ∧
      ((polylines_intersect [⟨0, 0⟩, ⟨0, 1⟩] [⟨0, 2⟩, ⟨0, 3⟩]).1 = true ↔
        (polylines_intersect [⟨0, 0⟩, ⟨0, 1⟩] [⟨0, 2⟩, ⟨0, 3⟩]).2 ≠ [])) :=
  ⟨by simp, by simp,
    polylines_intersect_spec [⟨0, 0⟩, ⟨0, 1⟩] [⟨0, 2⟩, ⟨0, 3⟩] (by simp) (by simp)⟩

/-- Witness for C6 at a concrete two-point polyline. -/
theorem point_on_polyline_spec_witness :
    2 ≤ ([⟨0, 0⟩, ⟨0, 1⟩] : List Location).length ∧
    ((∀ i, point_on_polyline ⟨0, 0.5⟩ [⟨0, 0⟩, ⟨0, 1⟩] 1 = (true, some i) ↔
      (i < ([⟨0, 0⟩, ⟨0, 1⟩] : List Location).length - 1 ∧
       point_on_line_segment ⟨0, 0.5⟩
         (([⟨0, 0⟩, ⟨0, 1⟩] : List Location).getD i dummyLoc)
         (([⟨0, 0⟩, ⟨0, 1⟩] : List Location).getD (i + 1) dummyLoc) 1 = true ∧
       ∀ j < i, point_on_line_segment ⟨0, 0.5⟩
         (([⟨0, 0⟩, ⟨0, 1⟩] : List Location).getD j dummyLoc)
         (([⟨0, 0⟩, ⟨0, 1⟩] : List Location).getD (j + 1) dummyLoc) 1 = false)) ∧
    (point_on_polyline ⟨0, 0.5⟩ [⟨0, 0⟩, ⟨0, 1⟩] 1 = (false, none) ↔
      (∀ i < ([⟨0, 0⟩, ⟨0, 1⟩] : List Location).length - 1,
        point_on_line_segment ⟨0, 0.5⟩
          (([⟨0, 0⟩, ⟨0, 1⟩] : List Location).getD i dummyLoc)
          (([⟨0, 0⟩, ⟨0, 1⟩] : List Location).getD (i + 1) dummyLoc) 1 = false))) :=
  ⟨by simp, point_on_polyline_spec ⟨0, 0.5⟩ [⟨0, 0⟩, ⟨0, 1⟩] 1 (by simp)⟩

/-- C9: a polyline with fewer than 2 points never matches anything, in
either matching mode. -/
theorem short_polyline_never_matches (polyline1 polyline2 polyline : List Location)
    (point : Location) (tolerance_meters : ℝ)
    (h12 : polyline1.length < 2 ∨ polyline2.length < 2)
    (hp : polyline.length < 2) :
    polylines_intersect polyline1 polyline2 = (false, []) ∧
    point_on_polyline point polyline tolerance_meters = (false, none) := by
  constructor
  · unfold polylines_intersect
    rw [if_pos h12]
  · unfold point_on_polyline
    rw [if_pos hp]

/-- Witness for C9 at concrete degenerate polylines. -/
theorem short_polyline_never_matches_witness :
    (([⟨0, 0⟩] : List Location).length < 2 ∨
      ([⟨0, 1⟩, ⟨0, 2⟩] : List Location).length < 2) ∧
    ([] : List Location).length < 2 ∧
    (polylines_intersect [⟨0, 0⟩] [⟨0, 1⟩, ⟨0, 2⟩] = (false, []) ∧
      point_on_polyline ⟨0, 0⟩ [] 1 = (false, none)) :=
  ⟨Or.inl (by simp), by simp,
    short_polyline_never_matches [⟨0, 0⟩] [⟨0, 1⟩, ⟨0, 2⟩] [] ⟨0, 0⟩ 1
      (Or.inl (by simp)) (by simp)⟩

/-! ## Event matcher: `find_affected_routes` -/

/-- One row of the traffic DataFrame, restricted to the fields the
matcher reads.  A coordinate entry is `some (lng, lat)` when both
components parse to floats and `none` when parsing raises (the
per-coordinate `try`/`except` skips it).  A non-list or falsy
`coordinates` cell is modelled as the empty list, as in
`row.get('coordinates') or []`. -/
structure TrafficRow where
  id : Str
  road_name : Str
  locality : Str
  description : Str
  coordinates : List (Option (ℝ × ℝ))

/-- The geocoding collaborator `geocode_road_name(road, key, ..,
locality, description)`: `Except.error` models a raised exception
escaping the call, `Except.ok none` the `(None, None)` failure return,
`Except.ok (some (lat, lng))` a successful geocode. -/
def Geocoder : Type := Str → Str → Str → Except Str (Option (ℝ × ℝ))

/-- The `intersection_type` strings recorded by the matcher. -/
inductive IntersectionType
  | polyline_intersection
  | point_on_route
  deriving DecidableEq

/-- The `event_type` strings recorded in the match result. -/
inductive EventType
  | polyline
  | point
  deriving DecidableEq

/-- The `location` string of a match-result entry (`"polyline {n}
points"`, a formatted geocoded point, or `'unknown'`). -/
inductive LocRepr
  | polylinePoints (n : ℕ)
  | geocoded (lat lng : ℝ)
  | unknown

/-- One entry of `affected_directions`. -/
structure AffectedDirection where
  route_id : Str
  direction : Str
  intersection_type : IntersectionType
  segment_indices : List ℕ
  total_segments : ℕ

/-- One value of the `results` dict of `find_affected_routes`. -/
structure EventResult where
  location : LocRepr
  description : Str
  event_type : EventType
  affected_directions : List AffectedDirection

/-- The coordinate-parsing loop: each entry is parsed to
`Location(lat=coord[1], lng=coord[0])`; an entry that fails to parse is
skipped and the loop continues. -/
def parsePoints (coordinates : List (Option (ℝ × ℝ))) : List Location :=
  coordinates.filterMap (fun coord =>
    coord.map (fun lnglat => { lat := lnglat.2, lng := lnglat.1 }))

/-- Geometry resolution for one event row: provided coordinates are used
whenever the raw list is non-empty (`is_polyline` iff at least two
points parsed); only an event with an empty coordinate list falls back
to geocoding, which needs an API key and truthy road name and locality
and whose raised exceptions propagate. -/
def resolvePoints (gkey : Option Str) (gc : Geocoder) (row : TrafficRow) :
    Except Str (List Location × LocRepr × Bool) :=
  if 0 < row.coordinates.length then
    let event_points := parsePoints row.coordinates
    .ok (event_points, .polylinePoints event_points.length,
      decide (2 ≤ event_points.length))
  else if gkey.isSome ∧ row.road_name ≠ [] ∧ row.locality ≠ [] then
    match gc row.road_name row.locality row.description with
    | .error e => .error e
    | .ok (some latlng) =>
      .ok ([{ lat := latlng.1, lng := latlng.2 }], .geocoded latlng.1 latlng.2,
        false)
    | .ok none => .ok ([], .unknown, false)
  else .ok ([], .unknown, false)

/-- The `total_segments` count recorded per affected direction:
`len(coords) - 1 if len(coords) > 1 else 0`. -/
def totalSegments (rd : RouteDir) : ℕ :=
  if 1 < rd.coordinates.length then rd.coordinates.length - 1 else 0

/-- The per-direction body of the matching scan: polyline mode tests
`polylines_intersect`, point mode tests `point_on_polyline` on the first
event point. -/
noncomputable def matchDirection (tolerance_meters : ℝ) (event_points : List Location)
    (is_polyline : Bool) (rd : RouteDir) : Option AffectedDirection :=
  if is_polyline then
    let r := polylines_intersect event_points rd.coordinates
    if r.1 then
      some { route_id := rd.route_id, direction := rd.direction,
             intersection_type := .polyline_intersection,
             segment_indices := r.2, total_segments := totalSegments rd }
    else none
  else
    let r := point_on_polyline (event_points.getD 0 dummyLoc) rd.coordinates
      tolerance_meters
    if r.1 then
      some { route_id := rd.route_id, direction := rd.direction,
             intersection_type := .point_on_route,
             segment_indices := match r.2 with | some i => [i] | none => [],
             total_segments := totalSegments rd }
    else none

/-- The scan over the flat route-direction list, appending an
`AffectedDirection` for every direction found affected, in scan
order. -/
noncomputable def matchEvent (route_directions : List RouteDir) (tolerance_meters : ℝ)
    (event_points : List Location) (is_polyline : Bool) : List AffectedDirection :=
  route_directions.filterMap (matchDirection tolerance_meters event_points is_polyline)

/-- Processing of a single event row: resolve its geometry, skip it when
no usable points remain, scan the route directions, and record a result
entry only when at least one direction is affected. -/
noncomputable def processRow (route_directions : List RouteDir) (tolerance_meters : ℝ)
    (gkey : Option Str) (gc : Geocoder) (row : TrafficRow) :
    Except Str (Option (Str × EventResult)) :=
  match resolvePoints gkey gc row with
  | .error e => .error e
  | .ok (event_points, location_repr, is_polyline) =>
    if event_points.isEmpty then .ok none
    else
      let affected_directions :=
        matchEvent route_directions tolerance_meters event_points is_polyline
      if affected_directions.isEmpty then .ok none
      else
        .ok (some (row.id,
          { location := location_repr, description := row.description,
            event_type := if is_polyline then .polyline else .point,
            affected_directions := affected_directions }))

/-- Dict assignment `results[event_id] = value` on the insertion-ordered dict, modelled
as an association list: replace in place when the key exists, append
otherwise. -/
noncomputable def upsert (acc : List (Str × EventResult)) (k : Str) (v : EventResult) :
    List (Str × EventResult) :=
  if acc.any (fun p => p.1 = k) then
    acc.map (fun p => if p.1 = k then (k, v) else p)
  else acc ++ [(k, v)]

/-- The `for _, row in traffic_df.iterrows()` loop of
`find_affected_routes`.  There is no per-event exception handler in the
source: an exception escaping `processRow` (i.e. one raised by the
geocoding call) aborts the whole loop. -/
noncomputable def runEvents (route_directions : List RouteDir) (tolerance_meters : ℝ)
    (gkey : Option Str) (gc : Geocoder) :
    List TrafficRow → List (Str × EventResult) →
      Except Str (List (Str × EventResult))
  | [], acc => .ok acc
  | row :: rest, acc =>
    match processRow route_directions tolerance_meters gkey gc row with
    | .error e => .error e
    | .ok none => runEvents route_directions tolerance_meters gkey gc rest acc
    | .ok (some (k, v)) =>
      runEvents route_directions tolerance_meters gkey gc rest (upsert acc k v)

/-- The entry point `find_affected_routes(traffic_df, tolerance_meters, geocode_api_key,
...)`: the per-event loop starting from the empty results dict. -/
noncomputable def find_affected_routes (route_directions : List RouteDir)
    (rows : List TrafficRow) (tolerance_meters : ℝ) (gkey : Option Str)
    (gc : Geocoder) : Except Str (List (Str × EventResult)) :=
  runEvents route_directions tolerance_meters gkey gc rows []

/-! ### Structural lemmas about the results dict -/

theorem lookup_eq_none_of_keys {β : Type} (acc : List (Str × β)) (k : Str)
    (h : ∀ p ∈ acc, p.1 ≠ k) : acc.lookup k = none := by
  induction acc with
  | nil => rfl
  | cons p ps ih =>
    obtain ⟨pk, pv⟩ := p
    rw [List.lookup_cons]
    have hne : (k == pk) = false :=
      beq_eq_false_iff_ne.mpr (fun he => h (pk, pv) (by simp) (by simp [he]))
    rw [hne]
    exact ih (fun q hq => h q (List.mem_cons_of_mem _ hq))

theorem lookup_append_single_self {β : Type} (acc : List (Str × β)) (k : Str) (v : β)
    (h : ∀ p ∈ acc, p.1 ≠ k) : (acc ++ [(k, v)]).lookup k = some v := by
  induction acc with
  | nil => simp [List.lookup_cons]
  | cons p ps ih =>
    obtain ⟨pk, pv⟩ := p
    rw [List.cons_append, List.lookup_cons]
    have hne : (k == pk) = false :=
      beq_eq_false_iff_ne.mpr (fun he => h (pk, pv) (by simp) (by simp [he]))
    rw [hne]
    exact ih (fun q hq => h q (List.mem_cons_of_mem _ hq))

theorem lookup_map_replace (l : List (Str × EventResult)) (k k' : Str)
    (v : EventResult) (h : k' ≠ k) :
    (l.map (fun p => if p.1 = k then (k, v) else p)).lookup k' = l.lookup k' := by
  induction l with
  | nil => rfl
  | cons p ps ih =>
    obtain ⟨pk, pv⟩ := p
    simp only [List.map_cons]
    by_cases hp : pk = k
    · rw [if_pos (by simpa using hp), List.lookup_cons, List.lookup_cons,
        show (k' == k) = false from beq_eq_false_iff_ne.mpr h,
        show (k' == pk) = false from beq_eq_false_iff_ne.mpr (hp ▸ h)]
      exact ih
    · rw [if_neg (by simpa using hp), List.lookup_cons, List.lookup_cons]
      by_cases hk' : k' = pk
      · rw [show (k' == pk) = true from beq_iff_eq.mpr hk']
      · rw [show (k' == pk) = false from beq_eq_false_iff_ne.mpr hk']
        exact ih

theorem lookup_append_single_ne {β : Type} (l : List (Str × β)) (k k' : Str)
    (v : β) (h : k' ≠ k) : (l ++ [(k, v)]).lookup k' = l.lookup k' := by
  induction l with
  | nil =>
    rw [List.nil_append, List.lookup_cons,
      show (k' == k) = false from beq_eq_false_iff_ne.mpr h]
  | cons p ps ih =>
    obtain ⟨pk, pv⟩ := p
    rw [List.cons_append, List.lookup_cons, List.lookup_cons]
    by_cases hk' : k' = pk
    · rw [show (k' == pk) = true from beq_iff_eq.mpr hk']
    · rw [show (k' == pk) = false from beq_eq_false_iff_ne.mpr hk']
      exact ih

theorem lookup_upsert_ne (acc : List (Str × EventResult)) (k k' : Str)
    (v : EventResult) (h : k' ≠ k) :
    (upsert acc k v).lookup k' = acc.lookup k' := by
  unfold upsert
  split_ifs with hany
  · exact lookup_map_replace acc k k' v h
  · exact lookup_append_single_ne acc k k' v h

theorem upsert_of_fresh (acc : List (Str × EventResult)) (k : Str) (v : EventResult)
    (h : ∀ p ∈ acc, p.1 ≠ k) : upsert acc k v = acc ++ [(k, v)] := by
  unfold upsert
  rw [if_neg]
  intro hany
  rw [List.any_eq_true] at hany
  obtain ⟨p, hp, hpk⟩ := hany
  exact h p hp (by simpa using hpk)

theorem processRow_eq_error (route_directions : List RouteDir)
    (tolerance_meters : ℝ) (gkey : Option Str) (gc : Geocoder) (row : TrafficRow)
    (e : Str) (hr : resolvePoints gkey gc row = .error e) :
    processRow route_directions tolerance_meters gkey gc row = .error e := by
  unfold processRow
  rw [hr]

theorem processRow_eq_ok (route_directions : List RouteDir)
    (tolerance_meters : ℝ) (gkey : Option Str) (gc : Geocoder) (row : TrafficRow)
    (event_points : List Location) (location_repr : LocRepr) (is_polyline : Bool)
    (hr : resolvePoints gkey gc row = .ok (event_points, location_repr, is_polyline)) :
    processRow route_directions tolerance_meters gkey gc row =
      (if event_points.isEmpty then .ok none
       else if (matchEvent route_directions tolerance_meters event_points
           is_polyline).isEmpty then .ok none
       else .ok (some (row.id,
         { location := location_repr, description := row.description,
           event_type := if is_polyline then .polyline else .point,
           affected_directions :=
             matchEvent route_directions tolerance_meters event_points
               is_polyline }))) := by
  unfold processRow
  rw [hr]

theorem processRow_key (route_directions : List RouteDir) (tolerance_meters : ℝ)
    (gkey : Option Str) (gc : Geocoder) (row : TrafficRow) (k : Str)
    (v : EventResult)
    (h : processRow route_directions tolerance_meters gkey gc row = .ok (some (k, v))) :
    k = row.id := by
  rcases hr : resolvePoints gkey gc row with e | ⟨pts, repr', isPoly⟩
  · rw [processRow_eq_error route_directions tolerance_meters gkey gc row e hr] at h
    exact absurd h (by simp)
  · rw [processRow_eq_ok route_directions tolerance_meters gkey gc row
      pts repr' isPoly hr] at h
    split_ifs at h with h1 h2 h3
    · exact absurd h (by simp)
    · exact absurd h (by simp)
    · simp only [Except.ok.injEq, Option.some.injEq, Prod.mk.injEq] at h
      exact h.1.symm
    · simp only [Except.ok.injEq, Option.some.injEq, Prod.mk.injEq] at h
      exact h.1.symm

theorem runEvents_lookup_stable (route_directions : List RouteDir)
    (tolerance_meters : ℝ) (gkey : Option Str) (gc : Geocoder)
    (rest : List TrafficRow) :
    ∀ (acc res : List (Str × EventResult)) (k : Str),
      runEvents route_directions tolerance_meters gkey gc rest acc = .ok res →
      k ∉ rest.map (fun r => r.id) → res.lookup k = acc.lookup k := by
  induction rest with
  | nil =>
    intro acc res k h _
    simp only [runEvents, Except.ok.injEq] at h
    rw [← h]
  | cons row rest ih =>
    intro acc res k h hk
    simp only [runEvents] at h
    rcases hp : processRow route_directions tolerance_meters gkey gc row with e | o
    · rw [hp] at h
      exact absurd h (by simp)
    · rw [hp] at h
      rcases o with _ | ⟨kk, vv⟩
      · exact ih acc res k h (fun hm => hk (by simp [List.mem_cons]; right; simpa using hm))
      · have hkk : kk = row.id := processRow_key _ _ _ _ _ _ _ hp
        have h2 := ih (upsert acc kk vv) res k h
          (fun hm => hk (by simp [List.mem_cons]; right; simpa using hm))
        rw [h2, lookup_upsert_ne]
        rw [hkk]
        intro he
        exact hk (by simp [he])

theorem runEvents_ok_lookup (route_directions : List RouteDir)
    (tolerance_meters : ℝ) (gkey : Option Str) (gc : Geocoder)
    (rows : List TrafficRow) :
    ∀ (acc res : List (Str × EventResult)),
      (rows.map (fun r => r.id)).Nodup →
      (∀ r ∈ rows, ∀ p ∈ acc, p.1 ≠ r.id) →
      runEvents route_directions tolerance_meters gkey gc rows acc = .ok res →
      ∀ row ∈ rows,
        ∃ o, processRow route_directions tolerance_meters gkey gc row = .ok o ∧
          res.lookup row.id = o.map Prod.snd := by
  induction rows with
  | nil =>
    intro acc res _ _ _ row hrow
    exact absurd hrow (by simp)
  | cons row0 rest ih =>
    intro acc res hnd hdisj h row hrow
    simp only [runEvents] at h
    have hnd' : (rest.map (fun r => r.id)).Nodup := (List.nodup_cons.mp hnd).2
    have hid0 : row0.id ∉ rest.map (fun r => r.id) := by
      have := (List.nodup_cons.mp hnd).1
      simpa using this
    rcases hp : processRow route_directions tolerance_meters gkey gc row0 with e | o
    · rw [hp] at h
      exact absurd h (by simp)
    · rw [hp] at h
      rcases o with _ | ⟨kk, vv⟩
      · have h' : runEvents route_directions tolerance_meters gkey gc rest acc =
            .ok res := h
        rcases List.mem_cons.mp hrow with hre | hrow'
        · rw [hre]
          refine ⟨none, hp, ?_⟩
          rw [runEvents_lookup_stable _ _ _ _ _ acc res row0.id h' hid0]
          exact lookup_eq_none_of_keys acc row0.id (hdisj row0 (by simp))
        · exact ih acc res hnd'
            (fun r hr p hpm => hdisj r (List.mem_cons_of_mem _ hr) p hpm) h' row hrow'
      · have h' : runEvents route_directions tolerance_meters gkey gc rest
            (upsert acc kk vv) = .ok res := h
        have hkk : kk = row0.id := processRow_key _ _ _ _ _ _ _ hp
        have hfresh : ∀ p ∈ acc, p.1 ≠ row0.id := hdisj row0 (by simp)
        rcases List.mem_cons.mp hrow with hre | hrow'
        · rw [hre]
          refine ⟨some (kk, vv), hp, ?_⟩
          rw [runEvents_lookup_stable _ _ _ _ _ (upsert acc kk vv) res row0.id h' hid0]
          rw [hkk, upsert_of_fresh acc row0.id vv hfresh,
            lookup_append_single_self acc row0.id vv hfresh]
          rfl
        · refine ih (upsert acc kk vv) res hnd' ?_ h' row hrow'
          intro r hr p hpm
          rw [hkk, upsert_of_fresh acc row0.id vv hfresh] at hpm
          rcases List.mem_append.mp hpm with hpa | hps
          · exact hdisj r (List.mem_cons_of_mem _ hr) p hpa
          · have hpe : p = (row0.id, vv) := by simpa using hps
            rw [hpe]
            intro he
            have hre : row0.id = r.id := he
            exact hid0 (by rw [hre]; exact List.mem_map_of_mem _ hr)

/-! ### Branch lemmas for geometry resolution -/

theorem resolvePoints_coords (gkey : Option Str) (gc : Geocoder) (row : TrafficRow)
    (hc : row.coordinates ≠ []) :
    resolvePoints gkey gc row = .ok (parsePoints row.coordinates,
      .polylinePoints (parsePoints row.coordinates).length,
      decide (2 ≤ (parsePoints row.coordinates).length)) := by
  unfold resolvePoints
  rw [if_pos (List.length_pos.mpr hc)]

theorem resolvePoints_geocoded (gkey : Option Str) (gc : Geocoder) (row : TrafficRow)
    (lat lng : ℝ) (hc : row.coordinates = [])
    (hg : gkey.isSome ∧ row.road_name ≠ [] ∧ row.locality ≠ [])
    (hgc : gc row.road_name row.locality row.description = .ok (some (lat, lng))) :
    resolvePoints gkey gc row =
      .ok ([{ lat := lat, lng := lng }], .geocoded lat lng, false) := by
  unfold resolvePoints
  rw [if_neg (by simp [hc]), if_pos hg, hgc]

theorem resolvePoints_geofail (gkey : Option Str) (gc : Geocoder) (row : TrafficRow)
    (hc : row.coordinates = [])
    (hg : gkey.isSome ∧ row.road_name ≠ [] ∧ row.locality ≠ [])
    (hgc : gc row.road_name row.locality row.description = .ok none) :
    resolvePoints gkey gc row = .ok ([], .unknown, false) := by
  unfold resolvePoints
  rw [if_neg (by simp [hc]), if_pos hg, hgc]

theorem resolvePoints_geoerror (gkey : Option Str) (gc : Geocoder) (row : TrafficRow)
    (e : Str) (hc : row.coordinates = [])
    (hg : gkey.isSome ∧ row.road_name ≠ [] ∧ row.locality ≠ [])
    (hgc : gc row.road_name row.locality row.description = .error e) :
    resolvePoints gkey gc row = .error e := by
  unfold resolvePoints
  rw [if_neg (by simp [hc]), if_pos hg, hgc]

theorem resolvePoints_nogeo (gkey : Option Str) (gc : Geocoder) (row : TrafficRow)
    (hc : row.coordinates = [])
    (hg : ¬(gkey.isSome ∧ row.road_name ≠ [] ∧ row.locality ≠ [])) :
    resolvePoints gkey gc row = .ok ([], .unknown, false) := by
  unfold resolvePoints
  rw [if_neg (by simp [hc]), if_neg hg]

/-- The per-event outcome recorded by `find_affected_routes` once the
event's geometry is resolved: `none` (event omitted) when no route
direction is affected, otherwise the result entry. -/
noncomputable def eventOutcome (route_directions : List RouteDir)
    (tolerance_meters : ℝ) (location_repr : LocRepr) (desc : Str)
    (event_points : List Location) (is_polyline : Bool) : Option EventResult :=
  let affected := matchEvent route_directions tolerance_meters event_points is_polyline
  if affected.isEmpty then none
  else some { location := location_repr, description := desc,
              event_type := if is_polyline then .polyline else .point,
              affected_directions := affected }

theorem map_snd_map_pair (k : Str) (o : Option EventResult) :
    (o.map (fun er => (k, er))).map Prod.snd = o := by
  cases o <;> rfl

theorem processRow_outcome (route_directions : List RouteDir)
    (tolerance_meters : ℝ) (gkey : Option Str) (gc : Geocoder) (row : TrafficRow)
    (event_points : List Location) (location_repr : LocRepr) (is_polyline : Bool)
    (hr : resolvePoints gkey gc row = .ok (event_points, location_repr, is_polyline))
    (hne : event_points ≠ []) :
    processRow route_directions tolerance_meters gkey gc row =
      .ok ((eventOutcome route_directions tolerance_meters location_repr
        row.description event_points is_polyline).map (fun er => (row.id, er))) := by
  rw [processRow_eq_ok route_directions tolerance_meters gkey gc row
    event_points location_repr is_polyline hr, if_neg (by simp [hne])]
  simp only [eventOutcome]
  by_cases hm : (matchEvent route_directions tolerance_meters event_points
      is_polyline).isEmpty
  · rw [if_pos hm, if_pos hm]
    rfl
  · rw [if_neg hm, if_neg hm]
    rfl

/-- C1 (corrected): per-event geometry resolution of
`find_affected_routes`.  An event with a non-empty `coordinates` list
never geocodes: with at least 2 usable pairs it is matched as a polyline
of the parsed points in order (`event_type = polyline`); with exactly 1
usable pair it is matched in point mode at that parsed point
(`event_type = point`); with 0 usable pairs it is skipped.  Only an
event whose `coordinates` list is empty falls back to the geocoding
collaborator (when available together with a truthy road name and
locality); a successfully geocoded event is matched in point mode at the
geocoded point, and on geocoding returning no result or missing inputs
the event is skipped.  In every case the event contributes an entry to
the match result iff at least one route direction is affected. -/
theorem find_affected_routes_geometry_resolution
    (route_directions : List RouteDir) (rows : List TrafficRow)
    (tolerance_meters : ℝ) (gkey : Option Str) (gc : Geocoder)
    (res : List (Str × EventResult)) (row : TrafficRow)
    (hnd : (rows.map (fun r => r.id)).Nodup)
    (hok : find_affected_routes route_directions rows tolerance_meters gkey gc
      = .ok res)
    (hrow : row ∈ rows) :
    (row.coordinates ≠ [] →
      ((2 ≤ (parsePoints row.coordinates).length →
        res.lookup row.id = eventOutcome route_directions tolerance_meters
          (.polylinePoints (parsePoints row.coordinates).length) row.description
          (parsePoints row.coordinates) true) ∧
       ((parsePoints row.coordinates).length = 1 →
        res.lookup row.id = eventOutcome route_directions tolerance_meters
          (.polylinePoints (parsePoints row.coordinates).length) row.description
          (parsePoints row.coordinates) false) ∧
       (parsePoints row.coordinates = [] → res.lookup row.id = none))) ∧
    (row.coordinates = [] →
      ((gkey.isSome ∧ row.road_name ≠ [] ∧ row.locality ≠ [] →
        (∀ lat lng,
          gc row.road_name row.locality row.description = .ok (some (lat, lng)) →
          res.lookup row.id = eventOutcome route_directions tolerance_meters
            (.geocoded lat lng) row.description [{ lat := lat, lng := lng }] false) ∧
        (gc row.road_name row.locality row.description = .ok none →
          res.lookup row.id = none)) ∧
       (¬(gkey.isSome ∧ row.road_name ≠ [] ∧ row.locality ≠ []) →
        res.lookup row.id = none))) := by
  obtain ⟨o, hpr, hlk⟩ := runEvents_ok_lookup route_directions tolerance_meters
    gkey gc rows [] res hnd (by simp) hok row hrow
  constructor
  · intro hcne
    have hr := resolvePoints_coords gkey gc row hcne
    refine ⟨?_, ?_, ?_⟩
    · intro h2
      have hne : parsePoints row.coordinates ≠ [] := by
        intro he
        rw [he] at h2
        simp at h2
      have hpo := processRow_outcome route_directions tolerance_meters gkey gc
        row _ _ _ hr hne
      rw [decide_eq_true h2] at hpo
      rw [hlk, Except.ok.inj (hpr.symm.trans hpo), map_snd_map_pair]
    · intro h1
      have hne : parsePoints row.coordinates ≠ [] := by
        intro he
        rw [he] at h1
        simp at h1
      have hpo := processRow_outcome route_directions tolerance_meters gkey gc
        row _ _ _ hr hne
      rw [decide_eq_false (by omega)] at hpo
      rw [hlk, Except.ok.inj (hpr.symm.trans hpo), map_snd_map_pair]
    · intro hemp
      have hpe := processRow_eq_ok route_directions tolerance_meters gkey gc row
        _ _ _ hr
      rw [if_pos (by simp [hemp])] at hpe
      rw [hlk, Except.ok.inj (hpr.symm.trans hpe)]
      rfl
  · intro hce
    refine ⟨fun hg => ⟨?_, ?_⟩, fun hg => ?_⟩
    · intro lat lng hgc
      have hr := resolvePoints_geocoded gkey gc row lat lng hce hg hgc
      have hpo := processRow_outcome route_directions tolerance_meters gkey gc
        row _ _ _ hr (by simp)
      rw [hlk, Except.ok.inj (hpr.symm.trans hpo), map_snd_map_pair]
    · intro hgc
      have hr := resolvePoints_geofail gkey gc row hce hg hgc
      have hpe := processRow_eq_ok route_directions tolerance_meters gkey gc row
        _ _ _ hr
      rw [if_pos (by simp)] at hpe
      rw [hlk, Except.ok.inj (hpr.symm.trans hpe)]
      rfl
    · have hr := resolvePoints_nogeo gkey gc row hce hg
      have hpe := processRow_eq_ok route_directions tolerance_meters gkey gc row
        _ _ _ hr
      rw [if_pos (by simp)] at hpe
      rw [hlk, Except.ok.inj (hpr.symm.trans hpe)]
      rfl

/-! ### Concrete evaluation on the equator (`cos 0 = 1`) -/

theorem toCartesian_equator (l : ℝ) : toCartesian ⟨0, l⟩ = (l * 111320, 0) := by
  simp [toCartesian]

theorem pols_half :
    point_on_line_segment ⟨0, 0.5⟩ ⟨0, 0⟩ ⟨0, 1⟩ 1 = true := by
  rw [point_on_line_segment_true_iff]
  simp only [toCartesian_equator]
  norm_num

theorem popl_eval :
    point_on_polyline ⟨0, 0.5⟩ [⟨0, 0⟩, ⟨0, 1⟩] 1 = (true, some 0) := by
  unfold point_on_polyline
  rw [if_neg (by simp)]
  have h1 : (([(⟨0, 0⟩ : Location), ⟨0, 1⟩]).length - 1) = 1 := by simp
  have h2 : List.range 1 = [0] := by simp [List.range_succ]
  rw [h1, h2,
    List.find?_cons_of_pos _ (by
      simp only [List.getD_cons_zero, List.getD_cons_succ]
      exact pols_half)]

/-! ### Concrete scenarios for the matcher claims -/

/-- A route direction running along the equator from longitude 0 to 1. -/
noncomputable def rdC : RouteDir :=
  { route_id := "600-4289".toList, direction := "Caloundra".toList,
    coordinates := [⟨0, 0⟩, ⟨0, 1⟩] }

/-- The affected-direction record produced when a point event at
longitude 0.5 on the equator hits `rdC`. -/
noncomputable def affC : AffectedDirection :=
  { route_id := "600-4289".toList, direction := "Caloundra".toList,
    intersection_type := .point_on_route, segment_indices := [0],
    total_segments := 1 }

/-- An event whose coordinate list is non-empty but holds a single
unparsable entry, with usable road name and locality. -/
noncomputable def rowA : TrafficRow :=
  { id := "A".toList, road_name := "R".toList, locality := "L".toList,
    description := [], coordinates := [none] }

/-- A geocoder that always succeeds at the on-route point
`(lat, lng) = (0, 0.5)`. -/
noncomputable def gcA : Geocoder := fun _ _ _ => .ok (some (0, 0.5))

/-- An event with exactly one usable coordinate pair
`(lng, lat) = (0.5, 0)`. -/
noncomputable def rowB : TrafficRow :=
  { id := "B".toList, road_name := [], locality := [], description := [],
    coordinates := [some (0.5, 0)] }

/-- A geocoding collaborator whose call raises. -/
def gcBoom : Geocoder := fun _ _ _ => .error "boom".toList

/-- An event with an empty coordinate list and usable road name and
locality, which therefore triggers geocoding. -/
noncomputable def rowC : TrafficRow :=
  { id := "C".toList, road_name := "R".toList, locality := "L".toList,
    description := [], coordinates := [] }

/-- A well-formed polyline event with two usable coordinate pairs. -/
noncomputable def rowD : TrafficRow :=
  { id := "D".toList, road_name := [], locality := [], description := [],
    coordinates := [some (0, 0), some (1, 0)] }

theorem matchEvent_point_eval :
    matchEvent [rdC] 1 [⟨0, 0.5⟩] false = [affC] := by
  simp [matchEvent, matchDirection, rdC, popl_eval, totalSegments, affC]

theorem processRow_rowB :
    processRow [rdC] 1 (some "k".toList) gcBoom rowB =
      .ok (some (rowB.id,
        { location := .polylinePoints 1, description := rowB.description,
          event_type := .point, affected_directions := [affC] })) := by
  have hr : resolvePoints (some "k".toList) gcBoom rowB =
      .ok ([⟨0, 0.5⟩], .polylinePoints 1, false) := rfl
  rw [processRow_eq_ok [rdC] 1 (some "k".toList) gcBoom rowB _ _ _ hr,
    if_neg (by simp), matchEvent_point_eval, if_neg (by simp)]
  rfl

/-- Counterexample to C1 as stated.  Event `rowA` has a non-empty
`coordinates` list with zero usable pairs, a geocoding collaborator and
usable road name and locality are available, the geocoder succeeds at a
point that lies on a loaded route direction — yet `find_affected_routes`
returns the empty match result: the geocoding fallback is never
consulted when the raw coordinate list is non-empty.  Event `rowB` has
exactly one usable pair (fewer than 2) and its geocoder would raise —
yet the event is matched in point mode at the parsed coordinate, so
geocoding is not attempted there either. -/
theorem c1_geocode_fallback_counterexample :
    find_affected_routes [rdC] [rowA] 1 (some "k".toList) gcA = .ok [] ∧
    rowA.coordinates ≠ [] ∧
    parsePoints rowA.coordinates = [] ∧
    gcA rowA.road_name rowA.locality rowA.description = .ok (some (0, 0.5)) ∧
    (point_on_polyline ⟨0, 0.5⟩ rdC.coordinates 1).1 = true ∧
    find_affected_routes [rdC] [rowB] 1 (some "k".toList) gcBoom =
      .ok [(rowB.id,
        { location := .polylinePoints 1, description := rowB.description,
          event_type := .point, affected_directions := [affC] })] := by
  refine ⟨rfl, by simp [rowA], rfl, rfl, ?_, ?_⟩
  · rw [show rdC.coordinates = [⟨0, 0⟩, ⟨0, 1⟩] from rfl, popl_eval]
  · show runEvents [rdC] 1 (some "k".toList) gcBoom [rowB] [] = _
    simp only [runEvents, processRow_rowB]
    simp [upsert]

/-- Witness for the corrected C1 at a concrete input: a two-usable-pair
event against an empty route list. -/
theorem c1_geometry_resolution_witness :
    (([rowD].map (fun r => r.id)).Nodup) ∧
    (find_affected_routes [] [rowD] 1 none gcA = .ok []) ∧
    (rowD ∈ [rowD]) ∧
    (rowD.coordinates ≠ []) ∧
    (2 ≤ (parsePoints rowD.coordinates).length) ∧
    (([] : List (Str × EventResult)).lookup rowD.id =
      eventOutcome [] 1 (.polylinePoints (parsePoints rowD.coordinates).length)
        rowD.description (parsePoints rowD.coordinates) true) :=
  ⟨by simp, rfl, by simp, by simp [rowD], by decide,
    ((find_affected_routes_geometry_resolution [] [rowD] 1 none gcA [] rowD
      (by simp) rfl (by simp)).1 (by simp [rowD])).1 (by decide)⟩

/-- Helper for the corrected C3: an event whose raw coordinate list is
non-empty never raises out of its processing — unparsable coordinate
entries are skipped individually. -/
theorem processRow_ok_of_coords (route_directions : List RouteDir)
    (tolerance_meters : ℝ) (gkey : Option Str) (gc : Geocoder)
    (row : TrafficRow) (hc : row.coordinates ≠ []) :
    ∃ o, processRow route_directions tolerance_meters gkey gc row = .ok o := by
  rw [processRow_eq_ok route_directions tolerance_meters gkey gc row _ _ _
    (resolvePoints_coords gkey gc row hc)]
  split_ifs <;> exact ⟨_, rfl⟩

/-- Helper for the corrected C3: the only way one event's processing can
abort is a geocoding exception. -/
theorem processRow_ok_of_no_geoerror (route_directions : List RouteDir)
    (tolerance_meters : ℝ) (gkey : Option Str) (gc : Geocoder)
    (row : TrafficRow)
    (h : row.coordinates = [] →
      (gkey.isSome ∧ row.road_name ≠ [] ∧ row.locality ≠ []) →
      ∀ e, gc row.road_name row.locality row.description ≠ .error e) :
    ∃ o, processRow route_directions tolerance_meters gkey gc row = .ok o := by
  by_cases hc : row.coordinates = []
  · by_cases hg : gkey.isSome ∧ row.road_name ≠ [] ∧ row.locality ≠ []
    · rcases hgc : gc row.road_name row.locality row.description with e | o'
      · exact absurd hgc (h hc hg e)
      · rcases o' with _ | ⟨lat, lng⟩
        · rw [processRow_eq_ok route_directions tolerance_meters gkey gc row _ _ _
            (resolvePoints_geofail gkey gc row hc hg hgc)]
          split_ifs <;> exact ⟨_, rfl⟩
        · rw [processRow_eq_ok route_directions tolerance_meters gkey gc row _ _ _
            (resolvePoints_geocoded gkey gc row lat lng hc hg hgc)]
          split_ifs <;> exact ⟨_, rfl⟩
    · rw [processRow_eq_ok route_directions tolerance_meters gkey gc row _ _ _
        (resolvePoints_nogeo gkey gc row hc hg)]
      split_ifs <;> exact ⟨_, rfl⟩
  · exact processRow_ok_of_coords route_directions tolerance_meters gkey gc row hc

theorem runEvents_ok_of_no_geoerror (route_directions : List RouteDir)
    (tolerance_meters : ℝ) (gkey : Option Str) (gc : Geocoder) :
    ∀ (rows : List TrafficRow) (acc : List (Str × EventResult)),
      (∀ row ∈ rows, row.coordinates = [] →
        (gkey.isSome ∧ row.road_name ≠ [] ∧ row.locality ≠ []) →
        ∀ e, gc row.road_name row.locality row.description ≠ .error e) →
      ∃ res, runEvents route_directions tolerance_meters gkey gc rows acc
        = .ok res := by
  intro rows
  induction rows with
  | nil => exact fun acc _ => ⟨acc, rfl⟩
  | cons row rest ih =>
    intro acc h
    obtain ⟨o, ho⟩ := processRow_ok_of_no_geoerror route_directions
      tolerance_meters gkey gc row (h row (by simp))
    simp only [runEvents]
    rw [ho]
    rcases o with _ | ⟨k, v⟩
    · exact ih acc (fun r hr => h r (List.mem_cons_of_mem _ hr))
    · exact ih (upsert acc k v) (fun r hr => h r (List.mem_cons_of_mem _ hr))

/-- C3 (corrected): failure isolation in `find_affected_routes` is
per-coordinate, not per-event.  (a) An event whose raw coordinate list
is non-empty is always processed without raising: malformed coordinate
entries are skipped individually and the event continues with its
parseable entries (it is skipped, not the batch, only when none remain).
(b) As long as no event's geocoding call raises, the whole batch
completes.  There is, however, no per-event exception handler: a raised
geocoding exception aborts the whole batch (see the counterexample). -/
theorem find_affected_routes_failure_isolation (route_directions : List RouteDir)
    (tolerance_meters : ℝ) (gkey : Option Str) (gc : Geocoder) :
    (∀ row : TrafficRow, row.coordinates ≠ [] →
      ∃ o, processRow route_directions tolerance_meters gkey gc row = .ok o) ∧
    (∀ rows : List TrafficRow,
      (∀ row ∈ rows, row.coordinates = [] →
        (gkey.isSome ∧ row.road_name ≠ [] ∧ row.locality ≠ []) →
        ∀ e, gc row.road_name row.locality row.description ≠ .error e) →
      ∃ res, find_affected_routes route_directions rows tolerance_meters gkey gc
        = .ok res) :=
  ⟨fun row hc =>
    processRow_ok_of_coords route_directions tolerance_meters gkey gc row hc,
   fun rows h =>
    runEvents_ok_of_no_geoerror route_directions tolerance_meters gkey gc rows [] h⟩

/-- Counterexample to C3 as stated: one event (`rowC`) whose geocoding
call raises aborts the whole batch — the well-formed event `rowD` later
in the batch is not processed and no match result is produced, although
`rowD` alone is processed fine. -/
theorem c3_batch_abort_counterexample :
    find_affected_routes [] [rowC, rowD] 1 (some "k".toList) gcBoom =
      .error "boom".toList ∧
    rowD ∈ [rowC, rowD] ∧
    find_affected_routes [] [rowD] 1 (some "k".toList) gcBoom = .ok [] :=
  ⟨rfl, by simp, rfl⟩

/-- Witness for the corrected C3 at concrete inputs. -/
theorem find_affected_routes_failure_isolation_witness :
    rowD.coordinates ≠ [] ∧
    (∃ o, processRow [] 1 (some "k".toList) gcBoom rowD = .ok o) ∧
    (∃ res, find_affected_routes [] [rowD] 1 (some "k".toList) gcBoom
      = .ok res) := by
  refine ⟨by simp [rowD], ?_, ?_⟩
  · exact (find_affected_routes_failure_isolation [] 1 (some "k".toList)
      gcBoom).1 rowD (by simp [rowD])
  · refine (find_affected_routes_failure_isolation [] 1 (some "k".toList)
      gcBoom).2 [rowD] ?_
    intro row hrow hc
    simp only [List.mem_singleton] at hrow
    rw [hrow] at hc
    simp [rowD] at hc

/-! ## Result aggregator: `add_route_info_to_dataframe` -/

/-- Python's `s.split(c)` for a single-character separator. -/
def splitOnChar (c : Char) : Str → List Str
  | [] => [[]]
  | x :: xs =>
    if x = c then [] :: splitOnChar c xs
    else
      match splitOnChar c xs with
      | [] => [[x]]
      | h :: t => (x :: h) :: t

/-- Python's `route.split('-')[0]`: the cleaned route identifier. -/
def cleanRoute (route : Str) : Str := (splitOnChar '-' route).headD []

/-- Python's `combo.split('|')[0]`: the raw route id recovered from a combo. -/
def comboRoute (combo : Str) : Str := (splitOnChar '|' combo).headD []

/-- Python's `combo.split('|')[1]`: the headsign recovered from a combo. -/
def comboHeadsign (combo : Str) : Str := (splitOnChar '|' combo).getD 1 []

/-- The `route_headsign_combos` accumulation: `f"{route_id}|{direction}"`
per affected direction, deduplicated preserving first-seen order. -/
def routeHeadsignCombos (affected_directions : List AffectedDirection) : List Str :=
  affected_directions.foldl (fun acc d =>
    let combo := d.route_id ++ '|' :: d.direction
    if combo ∈ acc then acc else acc ++ [combo]) []

/-- The seen-set deduplication loop on cleaned route ids, keeping the
headsign paired with the first occurrence of each cleaned id. -/
def dedupByRoute : List (Str × Str) → List Str → List (Str × Str)
  | [], _ => []
  | (route, headsign) :: rest, seen =>
    if route ∈ seen then dedupByRoute rest seen
    else (route, headsign) :: dedupByRoute rest (route :: seen)

/-- A JSONB-compatible annotation value: scalar string or array of
strings. -/
inductive StrOrList
  | str (s : Str)
  | list (l : List Str)
  deriving DecidableEq

/-- The per-event annotation computation of
`add_route_info_to_dataframe`: combos, split back apart, cleaning,
deduplication on the cleaned id, and scalar-vs-array packaging. -/
def annotationFor (affected_directions : List AffectedDirection) :
    Option (StrOrList × StrOrList) :=
  let route_headsign_combos := routeHeadsignCombos affected_directions
  if route_headsign_combos = [] then none
  else
    let raw_routes := route_headsign_combos.map comboRoute
    let headsigns := route_headsign_combos.map comboHeadsign
    let cleaned_routes := raw_routes.map cleanRoute
    let uniq := dedupByRoute (cleaned_routes.zip headsigns) []
    let unique_cleaned_routes := uniq.map Prod.fst
    let unique_headsigns := uniq.map Prod.snd
    some
      (if unique_cleaned_routes.length = 1 then
        .str (unique_cleaned_routes.headD []) else .list unique_cleaned_routes,
       if unique_headsigns.length = 1 then
        .str (unique_headsigns.headD []) else .list unique_headsigns)

/-- The aggregator `add_route_info_to_dataframe`: both columns start as `None`; an
event gets its `route`/`headsign` pair exactly when its id is in the
match result and the combo list is non-empty. -/
def add_route_info_to_dataframe (rows : List TrafficRow)
    (affected_routes : List (Str × EventResult)) :
    List (TrafficRow × Option StrOrList × Option StrOrList) :=
  rows.map (fun row =>
    match affected_routes.lookup row.id with
    | none => (row, none, none)
    | some er =>
      match annotationFor er.affected_directions with
      | none => (row, none, none)
      | some rh => (row, some rh.1, some rh.2))

/-- First-seen-order deduplication of a list of strings: the reference
formulation for the aggregator's ordering behaviour. -/
def firstSeenDistinct (l : List Str) : List Str :=
  l.foldl (fun acc x => if x ∈ acc then acc else acc ++ [x]) []

/-! ### Aggregator lemmas -/

theorem splitOnChar_ne_nil (c : Char) (l : Str) : splitOnChar c l ≠ [] := by
  cases l with
  | nil => simp [splitOnChar]
  | cons x xs =>
    simp only [splitOnChar]
    split_ifs
    · simp
    · cases h : splitOnChar c xs <;> simp

theorem cleanRoute_eq_takeWhile (r : Str) :
    cleanRoute r = r.takeWhile (fun c => c != '-') := by
  induction r with
  | nil => rfl
  | cons x xs ih =>
    simp only [cleanRoute, splitOnChar, List.takeWhile_cons]
    by_cases hx : x = '-'
    · rw [if_pos hx]
      simp [hx]
    · rw [if_neg hx]
      obtain ⟨h, t, heq⟩ : ∃ h t, splitOnChar '-' xs = h :: t := by
        cases hsp : splitOnChar '-' xs with
        | nil => exact absurd hsp (splitOnChar_ne_nil '-' xs)
        | cons h t => exact ⟨h, t, rfl⟩
      rw [heq]
      simp only [cleanRoute, heq, List.headD_cons] at ih
      simp [hx, ih]

theorem lookup_cons_eq {β : Type} (k : Str) (v : β) (es : List (Str × β)) :
    ((k, v) :: es).lookup k = some v := by
  simp [List.lookup_cons]

theorem lookup_cons_ne {β : Type} (k a : Str) (v : β) (es : List (Str × β))
    (h : a ≠ k) : ((k, v) :: es).lookup a = es.lookup a := by
  simp [List.lookup_cons, beq_eq_false_iff_ne.mpr h]

theorem dedupByRoute_lookup (pairs : List (Str × Str)) :
    ∀ (seen : List Str) (r : Str),
      (dedupByRoute pairs seen).lookup r =
        if r ∈ seen then none
        else (pairs.find? (fun p => p.1 == r)).map Prod.snd := by
  induction pairs with
  | nil =>
    intro seen r
    simp [dedupByRoute]
  | cons p rest ih =>
    obtain ⟨r', h'⟩ := p
    intro seen r
    simp only [dedupByRoute]
    by_cases hr' : r' ∈ seen
    · rw [if_pos hr', ih seen r]
      by_cases hrr : r' = r
      · rw [if_pos (hrr ▸ hr'), if_pos (hrr ▸ hr')]
      · rw [List.find?_cons_of_neg _ (by simp [hrr])]
    · rw [if_neg hr']
      by_cases hrr : r = r'
      · subst hrr
        rw [lookup_cons_eq, if_neg hr', List.find?_cons_of_pos _ (by simp)]
        rfl
      · rw [lookup_cons_ne r' r h' _ hrr, ih (r' :: seen) r,
          List.find?_cons_of_neg _ (by simpa using Ne.symm hrr)]
        by_cases hs : r ∈ seen
        · rw [if_pos (by simp [hs]), if_pos hs]
        · rw [if_neg (by simp [hrr, hs]), if_neg hs]

theorem dedupByRoute_fst_disjoint (pairs : List (Str × Str)) :
    ∀ (seen : List Str) (x : Str),
      x ∈ (dedupByRoute pairs seen).map Prod.fst → x ∉ seen := by
  induction pairs with
  | nil => intro seen x hx; simp [dedupByRoute] at hx
  | cons p rest ih =>
    obtain ⟨r', h'⟩ := p
    intro seen x hx
    simp only [dedupByRoute] at hx
    by_cases hr' : r' ∈ seen
    · rw [if_pos hr'] at hx
      exact ih seen x hx
    · rw [if_neg hr'] at hx
      simp only [List.map_cons, List.mem_cons] at hx
      rcases hx with rfl | hx
      · exact hr'
      · have := ih (r' :: seen) x hx
        exact fun hs => this (List.mem_cons_of_mem _ hs)

theorem dedupByRoute_fst_nodup (pairs : List (Str × Str)) :
    ∀ seen : List Str, ((dedupByRoute pairs seen).map Prod.fst).Nodup := by
  induction pairs with
  | nil => intro seen; simp [dedupByRoute]
  | cons p rest ih =>
    obtain ⟨r', h'⟩ := p
    intro seen
    simp only [dedupByRoute]
    by_cases hr' : r' ∈ seen
    · rw [if_pos hr']
      exact ih seen
    · rw [if_neg hr']
      simp only [List.map_cons, List.nodup_cons]
      refine ⟨fun hmem => ?_, ih (r' :: seen)⟩
      exact dedupByRoute_fst_disjoint rest (r' :: seen) r' hmem (by simp)

theorem lookup_of_mem_fst_nodup {β : Type} (pairs : List (Str × β))
    (hnd : (pairs.map Prod.fst).Nodup) (p : Str × β) (hp : p ∈ pairs) :
    pairs.lookup p.1 = some p.2 := by
  induction pairs with
  | nil => exact absurd hp (List.not_mem_nil p)
  | cons q qs ih =>
    obtain ⟨qk, qv⟩ := q
    have hnd' : qk ∉ qs.map Prod.fst ∧ (qs.map Prod.fst).Nodup := by
      rw [List.map_cons, List.nodup_cons] at hnd
      exact hnd
    rcases List.mem_cons.mp hp with rfl | hp'
    · exact lookup_cons_eq _ _ _
    · have hne : p.1 ≠ qk := by
        intro he
        exact hnd'.1 (he ▸ List.mem_map_of_mem _ hp')
      rw [lookup_cons_ne qk p.1 qv qs hne]
      exact ih hnd'.2 hp'

theorem dedupByRoute_foldl (pairs : List (Str × Str)) :
    ∀ (seen acc : List Str), (∀ x, x ∈ seen ↔ x ∈ acc) →
      pairs.foldl (fun a p => if p.1 ∈ a then a else a ++ [p.1]) acc =
        acc ++ (dedupByRoute pairs seen).map Prod.fst := by
  induction pairs with
  | nil => intro seen acc _; simp [dedupByRoute]
  | cons p rest ih =>
    obtain ⟨r, h'⟩ := p
    intro seen acc hsa
    simp only [List.foldl_cons, dedupByRoute]
    by_cases hr : r ∈ seen
    · rw [if_pos ((hsa r).mp hr), if_pos hr]
      exact ih seen acc hsa
    · rw [if_neg (fun ha => hr ((hsa r).mpr ha)), if_neg hr]
      rw [ih (r :: seen) (acc ++ [r]) (fun x => by
        rw [List.mem_cons, List.mem_append, List.mem_singleton]
        constructor
        · rintro (hx | hx)
          · exact Or.inr hx
          · exact Or.inl ((hsa x).mp hx)
        · rintro (hx | hx)
          · exact Or.inr ((hsa x).mpr hx)
          · exact Or.inl hx)]
      simp [List.append_assoc]

theorem firstSeenDistinct_eq_dedup_fst (cleaned headsigns : List Str)
    (hlen : cleaned.length = headsigns.length) :
    firstSeenDistinct cleaned =
      (dedupByRoute (cleaned.zip headsigns) []).map Prod.fst := by
  unfold firstSeenDistinct
  have hmap : (cleaned.zip headsigns).map Prod.fst = cleaned :=
    List.map_fst_zip cleaned headsigns (le_of_eq hlen)
  calc cleaned.foldl (fun acc x => if x ∈ acc then acc else acc ++ [x]) []
      = ((cleaned.zip headsigns).map Prod.fst).foldl
          (fun acc x => if x ∈ acc then acc else acc ++ [x]) [] := by rw [hmap]
    _ = (cleaned.zip headsigns).foldl
          (fun a p => if p.1 ∈ a then a else a ++ [p.1]) [] := by
          rw [List.foldl_map]
    _ = [] ++ (dedupByRoute (cleaned.zip headsigns) []).map Prod.fst :=
          dedupByRoute_foldl (cleaned.zip headsigns) [] [] (by simp)
    _ = (dedupByRoute (cleaned.zip headsigns) []).map Prod.fst := by simp

theorem dedupByRoute_ne_nil (p : Str × Str) (rest : List (Str × Str)) :
    dedupByRoute (p :: rest) [] ≠ [] := by
  obtain ⟨r, h⟩ := p
  simp [dedupByRoute]

theorem find?_of_dedup_entry (pairs : List (Str × Str)) (u : Str × Str)
    (hu : u ∈ dedupByRoute pairs []) :
    pairs.find? (fun p => p.1 == u.1) = some (u.1, u.2) := by
  have hl : (dedupByRoute pairs []).lookup u.1 = some u.2 :=
    lookup_of_mem_fst_nodup _ (dedupByRoute_fst_nodup pairs []) u hu
  rw [dedupByRoute_lookup pairs [] u.1, if_neg (List.not_mem_nil u.1)] at hl
  rcases hf : pairs.find? (fun p => p.1 == u.1) with _ | q
  · rw [hf] at hl
    exact absurd hl (by simp)
  · rw [hf] at hl
    have hq2 : q.2 = u.2 := by simpa using hl
    have hq1 : q.1 = u.1 := by simpa using List.find?_some hf
    rw [hf, ← hq1, ← hq2]

/-- C7: in the aggregator, a raw route id is cleaned by truncating at
its first `-` separator (`"600-4289"` cleans to `"600"`; an id without
a separator is unchanged), and the annotation written for an event is a
single string exactly when one distinct cleaned match remains, else the
ordered sequences of all remaining cleaned routes and their headsigns in
first-seen order. -/
theorem aggregator_cleaning_and_shape :
    (∀ r : Str, cleanRoute r = r.takeWhile (fun c => c != '-')) ∧
    cleanRoute "600-4289".toList = "600".toList ∧
    cleanRoute "600".toList = "600".toList ∧
    (∀ affected_directions : List AffectedDirection,
      (routeHeadsignCombos affected_directions = [] →
        annotationFor affected_directions = none) ∧
      (routeHeadsignCombos affected_directions ≠ [] →
        annotationFor affected_directions =
          (let combos := routeHeadsignCombos affected_directions
           let cleaned := (combos.map comboRoute).map cleanRoute
           let uniq := dedupByRoute (cleaned.zip (combos.map comboHeadsign)) []
           some
             (if (firstSeenDistinct cleaned).length = 1 then
               .str ((firstSeenDistinct cleaned).headD [])
              else .list (firstSeenDistinct cleaned),
              if (firstSeenDistinct cleaned).length = 1 then
               .str ((uniq.map Prod.snd).headD [])
              else .list (uniq.map Prod.snd))))) := by
  refine ⟨cleanRoute_eq_takeWhile, rfl, rfl, fun affected_directions => ⟨?_, ?_⟩⟩
  · intro h
    simp [annotationFor, h]
  · intro h
    simp only [annotationFor]
    rw [if_neg h]
    have hlen : (((routeHeadsignCombos affected_directions).map comboRoute).map
        cleanRoute).length =
        ((routeHeadsignCombos affected_directions).map comboHeadsign).length := by
      simp
    have hfst := firstSeenDistinct_eq_dedup_fst
      (((routeHeadsignCombos affected_directions).map comboRoute).map cleanRoute)
      ((routeHeadsignCombos affected_directions).map comboHeadsign) hlen
    have hls : ((dedupByRoute
        ((((routeHeadsignCombos affected_directions).map comboRoute).map
          cleanRoute).zip
          ((routeHeadsignCombos affected_directions).map comboHeadsign)) []).map
        Prod.snd).length =
        (firstSeenDistinct (((routeHeadsignCombos affected_directions).map
          comboRoute).map cleanRoute)).length := by
      rw [hfst]
      simp
    rw [← hfst, hls]

/-- C8: when the aggregator deduplicates on cleaned route identifiers,
the first occurrence wins: looking up any cleaned id in the deduplicated
route/headsign pair list yields exactly the headsign of the first
cleaned pair carrying that id — a later pair whose distinct raw id
collapses to the same cleaned id contributes nothing. -/
theorem aggregator_first_occurrence_wins
    (affected_directions : List AffectedDirection) (r : Str) :
    (dedupByRoute
        ((((routeHeadsignCombos affected_directions).map comboRoute).map
          cleanRoute).zip
          ((routeHeadsignCombos affected_directions).map comboHeadsign)) []).lookup r
      = (((((routeHeadsignCombos affected_directions).map comboRoute).map
          cleanRoute).zip
          ((routeHeadsignCombos affected_directions).map comboHeadsign)).find?
          (fun p => p.1 == r)).map Prod.snd := by
  rw [dedupByRoute_lookup _ [] r, if_neg (List.not_mem_nil r)]

/-- C10: every event annotated by `add_route_info_to_dataframe` has
route and headsign values of matching shape — both absent, both single
strings, or both sequences of equal length — and the headsign at each
position is the one paired with the first cleaned pair whose cleaned id
is the route at that position. -/
theorem add_route_info_shape (rows : List TrafficRow)
    (affected_routes : List (Str × EventResult))
    (x : TrafficRow × Option StrOrList × Option StrOrList)
    (hx : x ∈ add_route_info_to_dataframe rows affected_routes) :
    (x.2.1 = none ∧ x.2.2 = none) ∨
    (∃ er, affected_routes.lookup x.1.id = some er ∧
      ((∃ s t, x.2.1 = some (.str s) ∧ x.2.2 = some (.str t) ∧
        ((((routeHeadsignCombos er.affected_directions).map comboRoute).map
            cleanRoute).zip
          ((routeHeadsignCombos er.affected_directions).map comboHeadsign)).find?
          (fun p => p.1 == s) = some (s, t)) ∨
       (∃ rl hl, x.2.1 = some (.list rl) ∧ x.2.2 = some (.list hl) ∧
        rl.length = hl.length ∧
        ∀ k, k < rl.length →
          ((((routeHeadsignCombos er.affected_directions).map comboRoute).map
              cleanRoute).zip
            ((routeHeadsignCombos er.affected_directions).map comboHeadsign)).find?
            (fun p => p.1 == rl.getD k []) =
            some (rl.getD k [], hl.getD k [])))) := by
  obtain ⟨row, hrow, hxeq⟩ := List.mem_map.mp hx
  rcases hlk : affected_routes.lookup row.id with _ | er
  · left
    rw [← hxeq]
    simp [hlk]
  · rcases han : annotationFor er.affected_directions with _ | rh
    · left
      rw [← hxeq]
      simp [hlk, han]
    · right
      have hx1 : x.1 = row := by rw [← hxeq]; simp [hlk, han]
      have hxr : x.2.1 = some rh.1 := by rw [← hxeq]; simp [hlk, han]
      have hxh : x.2.2 = some rh.2 := by rw [← hxeq]; simp [hlk, han]
      refine ⟨er, by rw [hx1]; exact hlk, ?_⟩
      by_cases hc : routeHeadsignCombos er.affected_directions = []
      · exact absurd han (by simp [annotationFor, hc])
      · simp only [annotationFor] at han
        rw [if_neg hc] at han
        have hrh := (Option.some.inj han).symm
        set pairs := ((((routeHeadsignCombos er.affected_directions).map
          comboRoute).map cleanRoute).zip
          ((routeHeadsignCombos er.affected_directions).map comboHeadsign))
          with hpairs
        set uniq := dedupByRoute pairs [] with huniq
        by_cases hone : uniq.length = 1
        · left
          obtain ⟨u, hu⟩ : ∃ u, uniq = [u] := List.length_eq_one.mp hone
          refine ⟨u.1, u.2, ?_, ?_, ?_⟩
          · rw [hxr, hrh]
            simp [hone, hu]
          · rw [hxh, hrh]
            simp [hone, hu]
          · exact find?_of_dedup_entry pairs u (by rw [← huniq, hu]; simp)
        · right
          refine ⟨uniq.map Prod.fst, uniq.map Prod.snd, ?_, ?_, by simp, ?_⟩
          · rw [hxr, hrh]
            simp [hone]
          · rw [hxh, hrh]
            simp [hone]
          · intro k hk
            rw [List.length_map] at hk
            have hget1 : (uniq.map Prod.fst).getD k [] = uniq[k].1 := by
              rw [List.getD_eq_getElem?_getD,
                List.getElem?_eq_getElem (by simpa using hk)]
              simp
            have hget2 : (uniq.map Prod.snd).getD k [] = uniq[k].2 := by
              rw [List.getD_eq_getElem?_getD,
                List.getElem?_eq_getElem (by simpa using hk)]
              simp
            rw [hget1, hget2]
            exact find?_of_dedup_entry pairs uniq[k] (List.getElem_mem hk)

/-- An affected direction whose raw route id carries a `-` variant
suffix. -/
def affD1 : AffectedDirection :=
  { route_id := "600-1".toList, direction := "X".toList,
    intersection_type := .point_on_route, segment_indices := [0],
    total_segments := 1 }

/-- An affected direction with a separator-free route id. -/
def affD2 : AffectedDirection :=
  { route_id := "700".toList, direction := "Y".toList,
    intersection_type := .point_on_route, segment_indices := [0],
    total_segments := 1 }

/-- A match-result entry with two distinct cleaned routes. -/
noncomputable def erE : EventResult :=
  { location := .unknown, description := [], event_type := .point,
    affected_directions := [affD1, affD2] }

/-- The annotated row produced for `rowD` from `erE`. -/
noncomputable def xE : TrafficRow × Option StrOrList × Option StrOrList :=
  (rowD, some (.list ["600".toList, "700".toList]),
    some (.list ["X".toList, "Y".toList]))

/-- Witness for C7 at a concrete affected-direction list. -/
theorem aggregator_cleaning_and_shape_witness :
    routeHeadsignCombos [affD1] ≠ [] ∧
    annotationFor [affD1] =
      (let combos := routeHeadsignCombos [affD1]
       let cleaned := (combos.map comboRoute).map cleanRoute
       let uniq := dedupByRoute (cleaned.zip (combos.map comboHeadsign)) []
       some
         (if (firstSeenDistinct cleaned).length = 1 then
           .str ((firstSeenDistinct cleaned).headD [])
          else .list (firstSeenDistinct cleaned),
          if (firstSeenDistinct cleaned).length = 1 then
           .str ((uniq.map Prod.snd).headD [])
          else .list (uniq.map Prod.snd))) :=
  ⟨by decide, (aggregator_cleaning_and_shape.2.2.2 [affD1]).2 (by decide)⟩

/-- Witness for C10 at a concrete annotated batch. -/
theorem add_route_info_shape_witness :
    xE ∈ add_route_info_to_dataframe [rowD] [(rowD.id, erE)] ∧
    ((xE.2.1 = none ∧ xE.2.2 = none) ∨
    (∃ er, (([(rowD.id, erE)] : List (Str × EventResult)).lookup xE.1.id)
        = some er ∧
      ((∃ s t, xE.2.1 = some (.str s) ∧ xE.2.2 = some (.str t) ∧
        ((((routeHeadsignCombos er.affected_directions).map comboRoute).map
            cleanRoute).zip
          ((routeHeadsignCombos er.affected_directions).map comboHeadsign)).find?
          (fun p => p.1 == s) = some (s, t)) ∨
       (∃ rl hl, xE.2.1 = some (.list rl) ∧ xE.2.2 = some (.list hl) ∧
        rl.length = hl.length ∧
        ∀ k, k < rl.length →
          ((((routeHeadsignCombos er.affected_directions).map comboRoute).map
              cleanRoute).zip
            ((routeHeadsignCombos er.affected_directions).map comboHeadsign)).find?
            (fun p => p.1 == rl.getD k []) =
            some (rl.getD k [], hl.getD k []))))) := by
  have hmem : xE ∈ add_route_info_to_dataframe [rowD] [(rowD.id, erE)] := by
    rw [show add_route_info_to_dataframe [rowD] [(rowD.id, erE)] = [xE] from rfl]
    exact List.mem_singleton.mpr rfl
  exact ⟨hmem, add_route_info_shape [rowD] [(rowD.id, erE)] xE hmem⟩

end RouteCheck
